import Mathlib

/-!
Verification of the conversation-compression subsystem of the AIAdvent
repository (`test_compression.py`).

The script keeps an ordered conversation history of `{role, content}`
messages, calls the DeepSeek chat-completion API, compresses the history
into a single summary message after its scripted six question/answer
exchanges, and persists/restores the history as JSON files in a `memory/`
directory.

Modelling conventions (shallow embedding):
* A message dict `{"role": r, "content": c}` is the structure `Message`.
* The network is abstracted as an oracle `api : List Message → ServiceResponse`
  mapping a request message list to either a well-formed success body
  (`ServiceResponse.ok content usage?`) or a raised exception carried as its
  message string (`ServiceResponse.exn e` — transport errors,
  `raise_for_status` failures, JSON decode errors and missing keys all land
  in the single `except Exception` handler of `call_deepseek_api`).
* The `memory/` directory is an association list from file name to parsed
  file content: `FileRecord.valid v` for a file whose text parses as JSON
  value `v`, `FileRecord.invalid` for a file whose text raises
  `json.JSONDecodeError`.  The `os.path.join("memory", name)` plumbing is
  invertible and omitted: record identifiers are the file names inside the
  directory.  JSON objects written by the script have pairwise distinct
  keys, so first-match field lookup models Python dict access.
* `datetime.now()` is an explicit `Timestamp` argument; `strftime` /
  `isoformat` become pure formatting functions over it.
* Console output (`print`) relevant to a claim (the two failure messages of
  `load_context_from_json`) is returned alongside the value; other narration
  prints, token-count accumulators and `time.sleep` calls are dropped.
-/

/-- One conversation message: the dict `{"role": ..., "content": ...}`. -/
structure Message where
  role : String
  content : String
deriving DecidableEq, Repr

/-- The token-usage triple returned by `call_deepseek_api`. -/
structure TokenUsage where
  total_tokens : Nat
  prompt_tokens : Nat
  completion_tokens : Nat
deriving DecidableEq, Repr

/-- The optional `usage` object of a DeepSeek response body; each counter may
be absent (`result.get('usage', {})` plus per-key `.get(key, 0)`). -/
structure RawUsage where
  total_tokens : Option Nat
  prompt_tokens : Option Nat
  completion_tokens : Option Nat
deriving DecidableEq, Repr

/-- Outcome of one `requests.post` call to the completion service, as seen by
`call_deepseek_api`: either an HTTP success whose body is well-formed
(`choices[0].message.content` present, `usage` possibly absent), or any
raised exception (network/transport failure, non-2xx status via
`raise_for_status`, malformed body) carried as its string rendering. -/
inductive ServiceResponse where
  | ok (content : String) (usage : Option RawUsage)
  | exn (message : String)
deriving DecidableEq, Repr

/-- `call_deepseek_api`: returns `(response_text, usage)` on success, and on
any exception `e` returns `("Error: " ++ str(e), all-zero usage)` instead of
raising (the `except Exception` branch). -/
def call_deepseek_api (response : ServiceResponse) : String × TokenUsage :=
  match response with
  | .ok content usage =>
      let u := usage.getD ⟨none, none, none⟩
      (content, ⟨u.total_tokens.getD 0, u.prompt_tokens.getD 0, u.completion_tokens.getD 0⟩)
  | .exn e => ("Error: " ++ e, ⟨0, 0, 0⟩)

/-- Python `str.upper()` (all roles it is applied to are ASCII). -/
def str_upper (s : String) : String := String.mk (s.data.map Char.toUpper)

/-- `create_conversation_summary`: renders every non-system message as
`"ROLE: content"` lines, wraps them in the fixed Russian summarization
prompt, sends the two-message request through `call_deepseek_api` and
returns the response text (which on failure is the `"Error: ..."` string). -/
def create_conversation_summary (api : List Message → ServiceResponse)
    (messages : List Message) : String :=
  let conversation_text := String.intercalate "\n"
    ((messages.filter (fun msg => msg.role != "system")).map
      (fun msg => str_upper msg.role ++ ": " ++ msg.content))
  let summary_prompt :=
    "Создай краткое резюме следующего диалога.\nСохрани ВСЮ важную информацию, факты, контекст и выводы.\nРезюме должно позволить продолжить разговор без потери контекста.\n\nДиалог:\n"
    ++ conversation_text ++ "\n\nКраткое резюме (на русском):"
  let summary_messages : List Message :=
    [⟨"system", "Ты помощник, который создаёт краткие резюме диалогов, сохраняя всю важную информацию."⟩,
     ⟨"user", summary_prompt⟩]
  (call_deepseek_api (api summary_messages)).fst

/-- `calculate_tokens`: `sum(len(msg['content']) for msg in messages) // 4`. -/
def calculate_tokens (messages : List Message) : Nat :=
  (messages.map (fun msg => msg.content.length)).sum / 4

/-- JSON values, restricted to the shapes the script reads and writes. -/
inductive JsonVal where
  | str (s : String)
  | num (n : Nat)
  | arr (items : List JsonVal)
  | obj (fields : List (String × JsonVal))

/-- Serialization of one message dict inside `conversation_history`. -/
def msgToJson (m : Message) : JsonVal :=
  .obj [("role", .str m.role), ("content", .str m.content)]

/-- Decoder for one serialized message (used to state structural equality of
role/content pairs in the round-trip law). -/
def jsonToMsg : JsonVal → Option Message
  | .obj [("role", .str r), ("content", .str c)] => some ⟨r, c⟩
  | _ => none

/-- Decoder for a serialized message list. -/
def decodeTurnList : List JsonVal → Option (List Message)
  | [] => some []
  | x :: xs =>
    match jsonToMsg x, decodeTurnList xs with
    | some m, some ms => some (m :: ms)
    | _, _ => none

/-- Decoder for a serialized turn sequence. -/
def decodeTurns : JsonVal → Option (List Message)
  | .arr items => decodeTurnList items
  | _ => none

/-- Content of one file in the `memory/` directory, as seen after
`json.load`: either a parsed JSON value or a parse failure. -/
inductive FileRecord where
  | valid (data : JsonVal)
  | invalid

/-- The `memory/` directory: file name ↦ file content. -/
abbrev MemoryDir := List (String × FileRecord)

/-- Reading a file: `none` models `FileNotFoundError` on `open`. -/
def dirLookup : MemoryDir → String → Option FileRecord
  | [], _ => none
  | (k, v) :: rest, name => if k == name then some v else dirLookup rest name

/-- Writing a file with `open(filepath, 'w')`: creates or overwrites. -/
def dirWrite (fs : MemoryDir) (name : String) (content : FileRecord) : MemoryDir :=
  (name, content) :: fs.filter (fun p => p.fst != name)

/-- Python dict field access on a parsed JSON object. -/
def lookupField : List (String × JsonVal) → String → Option JsonVal
  | [], _ => none
  | (k, v) :: rest, key => if k == key then some v else lookupField rest key

/-- A wall-clock instant as used by `datetime.now()`. -/
structure Timestamp where
  year : Nat
  month : Nat
  day : Nat
  hour : Nat
  minute : Nat
  second : Nat
deriving DecidableEq, Repr

/-- Zero-padded fixed-width decimal rendering (the behaviour of `strftime`
fields such as `%Y`, `%m`, ... on in-range values). -/
def padChars : Nat → Nat → List Char
  | 0, _ => []
  | w + 1, n => Nat.digitChar (n / 10 ^ w) :: padChars w (n % 10 ^ w)

/-- String form of `padChars`. -/
def padStr (w n : Nat) : String := String.mk (padChars w n)

/-- `datetime.now().strftime("%Y%m%d_%H%M%S")`. -/
def Timestamp.strftime_compact (t : Timestamp) : String :=
  padStr 4 t.year ++ padStr 2 t.month ++ padStr 2 t.day ++ "_"
    ++ padStr 2 t.hour ++ padStr 2 t.minute ++ padStr 2 t.second

/-- `datetime.now().isoformat()` (second resolution suffices here). -/
def Timestamp.isoformat (t : Timestamp) : String :=
  padStr 4 t.year ++ "-" ++ padStr 2 t.month ++ "-" ++ padStr 2 t.day ++ "T"
    ++ padStr 2 t.hour ++ ":" ++ padStr 2 t.minute ++ ":" ++ padStr 2 t.second

/-- The default snapshot file name `f"context_{timestamp}.json"`. -/
def default_context_filename (t : Timestamp) : String :=
  "context_" ++ t.strftime_compact ++ ".json"

/-- Field ranges under which the `strftime` rendering is faithful (every real
`datetime` satisfies much tighter bounds). -/
def Timestamp.wf (t : Timestamp) : Prop :=
  t.year < 10000 ∧ t.month < 100 ∧ t.day < 100 ∧ t.hour < 100 ∧ t.minute < 100 ∧ t.second < 100

instance (t : Timestamp) : Decidable t.wf := by
  unfold Timestamp.wf
  infer_instance

/-- Chronological (lexicographic) order on timestamps. -/
def Timestamp.chronLt (a b : Timestamp) : Prop :=
  a.year < b.year ∨ (a.year = b.year ∧
    (a.month < b.month ∨ (a.month = b.month ∧
      (a.day < b.day ∨ (a.day = b.day ∧
        (a.hour < b.hour ∨ (a.hour = b.hour ∧
          (a.minute < b.minute ∨ (a.minute = b.minute ∧
            a.second < b.second)))))))))

instance (a b : Timestamp) : Decidable (a.chronLt b) := by
  unfold Timestamp.chronLt
  infer_instance

/-- The `context_data` dict serialized by `save_context_to_json`. -/
def context_data_json (now : Timestamp) (conversation_history : List Message) : JsonVal :=
  .obj [("timestamp", .str now.isoformat),
        ("messages_count", .num conversation_history.length),
        ("conversation_history", .arr (conversation_history.map msgToJson))]

/-- `save_context_to_json`: derives the file name from the timestamp when
none is given, writes the snapshot dict as JSON, and returns the updated
directory together with the record identifier it resolved. -/
def save_context_to_json (fs : MemoryDir) (now : Timestamp)
    (conversation_history : List Message) (filename : Option String) :
    MemoryDir × String :=
  let fname := filename.getD (default_context_filename now)
  (dirWrite fs fname (.valid (context_data_json now conversation_history)), fname)

/-- `load_context_from_json`: returns the parsed `conversation_history` field
(defaulting to the empty list when the field is absent) paired with the list
of printed diagnostics.  A missing file (`FileNotFoundError`) and a file that
is not well-formed JSON (`json.JSONDecodeError`) are both caught: the
function prints a distinct message and returns `none` (Python `None`) in both
cases.  A file that parses as JSON but is not an object makes
`context_data.get(...)` raise an uncaught `AttributeError`, modelled as the
`Except.error` branch. -/
def load_context_from_json (fs : MemoryDir) (filepath : String) :
    Except String (Option JsonVal × List String) :=
  match dirLookup fs filepath with
  | none => .ok (none, ["❌ Файл " ++ filepath ++ " не найден"])
  | some .invalid => .ok (none, ["❌ Ошибка чтения JSON из файла " ++ filepath])
  | some (.valid context_data) =>
    match context_data with
    | .obj fields => .ok (some ((lookupField fields "conversation_history").getD (.arr [])), [])
    | _ => .error "AttributeError"

/-- The value the caller of `load_context_from_json` receives (`some` of the
Python return value when the call returns, `none` when it raises). -/
def load_return_value (r : Except String (Option JsonVal × List String)) :
    Option (Option JsonVal) :=
  r.toOption.map Prod.fst

/-- Python `s.endswith(suffix)` on the underlying character lists. -/
def endsWithChars (l suffixChars : List Char) : Bool :=
  decide (suffixChars.length ≤ l.length) && (l.drop (l.length - suffixChars.length) == suffixChars)

/-- Python `s.endswith(suffix)`. -/
def str_endswith (s suffixStr : String) : Bool :=
  endsWithChars s.data suffixStr.data

/-- One insertion step of a descending sort (Python string comparison is the
same code-point-wise lexicographic order as Lean's `String` order). -/
def insertDesc (x : String) : List String → List String
  | [] => [x]
  | y :: ys => if x < y then y :: insertDesc x ys else x :: y :: ys

/-- `files.sort(reverse=True)`: descending lexicographic sort.  Equal keys
are equal strings, so stability is unobservable and any correct sorting
algorithm computes the same list as Python's. -/
def sortDesc : List String → List String
  | [] => []
  | x :: xs => insertDesc x (sortDesc xs)

/-- `list_saved_contexts`: the names of the `.json` files of the `memory/`
directory, most recent first. -/
def list_saved_contexts (fs : MemoryDir) : List String :=
  sortDesc ((fs.map Prod.fst).filter (fun f => str_endswith f ".json"))

/-- Number of messages whose role is `"user"`. -/
def user_turn_count (messages : List Message) : Nat :=
  (messages.filter (fun msg => msg.role == "user")).length

/-- The scripted questions of `main` (phase 1 sends the first six, phase 3
the remaining two). -/
def test_questions : List String :=
  ["Привет! Расскажи кратко о себе.",
   "Что такое искусственный интеллект?",
   "Как работают нейронные сети?",
   "Что такое токены в языковых моделях?",
   "Почему важно оптимизировать использование токенов?",
   "Как можно сжать историю диалога?",
   "Вернёмся к началу: помнишь, о чём мы говорили в самом первом сообщении?",
   "А что ты говорил про токены?"]

/-- One exchange of `main`'s dialogue loop: append the user question, call
the API on the updated history, append the assistant reply. -/
def run_exchange (api : List Message → ServiceResponse)
    (conversation_history : List Message) (question : String) : List Message :=
  let h := conversation_history ++ [⟨"user", question⟩]
  h ++ [⟨"assistant", (call_deepseek_api (api h)).fst⟩]

/-- A run of `main`'s dialogue loop over a list of questions. -/
def run_phase (api : List Message → ServiceResponse)
    (conversation_history : List Message) (questions : List String) : List Message :=
  questions.foldl (run_exchange api) conversation_history

/-- Phase 2 of `main`: replace the whole history with a single system
message embedding the original message count and the summary text
(`f"Предыдущий контекст диалога (резюме {len} сообщений):\n{summary}"`). -/
def compress_history (api : List Message → ServiceResponse)
    (conversation_history : List Message) : List Message :=
  let summary := create_conversation_summary api conversation_history
  [⟨"system", "Предыдущий контекст диалога (резюме "
      ++ toString conversation_history.length ++ " сообщений):\n" ++ summary⟩]

/-- The state `main` compresses: the history (possibly restored from a
snapshot) after the six phase-1 exchanges.  Compression in `main` is
unconditional — it happens at exactly this point of the script, whatever the
state looks like. -/
def main_compaction_input (api : List Message → ServiceResponse)
    (loaded : List Message) : List Message :=
  run_phase api loaded (test_questions.take 6)

/-- The final history of one `main` run: phase 1, unconditional compression,
then phase 3 over the remaining questions. -/
def main_conversation (api : List Message → ServiceResponse)
    (loaded : List Message) : List Message :=
  run_phase api (compress_history api (main_compaction_input api loaded))
    (test_questions.drop 6)

/-- Python `l.startswith(sub)` on the underlying character lists (the
candidate sub-list comes first). -/
def startsWithChars : List Char → List Char → Bool
  | [], _ => true
  | _ :: _, [] => false
  | b :: bs, a :: as => a == b && startsWithChars bs as

/-- Substring test on the underlying character lists. -/
def hasSubChars : List Char → List Char → Bool
  | [], sub => sub.isEmpty
  | l@(_ :: t), sub => startsWithChars sub l || hasSubChars t sub

/-- Python `sub in s` substring test. -/
def str_contains_sub (s sub : String) : Bool :=
  hasSubChars s.data sub.data

/-! ### Helper lemmas -/

theorem dirLookup_dirWrite_self (fs : MemoryDir) (name : String) (content : FileRecord) :
    dirLookup (dirWrite fs name content) name = some content := by
  simp [dirLookup, dirWrite]

theorem decodeTurnList_map (hist : List Message) :
    decodeTurnList (hist.map msgToJson) = some hist := by
  induction hist with
  | nil => rfl
  | cons m ms ih => simp [decodeTurnList, msgToJson, jsonToMsg, ih]

theorem startsWithChars_append (p r : List Char) : startsWithChars p (p ++ r) = true := by
  induction p with
  | nil => rfl
  | cons c cs ih => simp [startsWithChars, ih]

theorem endsWithChars_append (l s : List Char) : endsWithChars (l ++ s) s = true := by
  have h1 : (l ++ s).length - s.length = l.length := by
    rw [List.length_append]; omega
  have h2 : s.length ≤ (l ++ s).length := by
    rw [List.length_append]; omega
  simp [endsWithChars, h1, h2, List.drop_left]

theorem user_turn_count_run_exchange (api : List Message → ServiceResponse)
    (h : List Message) (q : String) :
    user_turn_count (run_exchange api h q) = user_turn_count h + 1 := by
  simp [run_exchange, user_turn_count, List.filter_append, List.filter]

theorem length_run_exchange (api : List Message → ServiceResponse)
    (h : List Message) (q : String) :
    (run_exchange api h q).length = h.length + 2 := by
  simp [run_exchange]

theorem user_turn_count_run_phase (qs : List String) :
    ∀ (api : List Message → ServiceResponse) (h : List Message),
      user_turn_count (run_phase api h qs) = user_turn_count h + qs.length := by
  induction qs with
  | nil => intro api h; simp [run_phase]
  | cons q qs ih =>
      intro api h
      show user_turn_count (run_phase api (run_exchange api h q) qs) = _
      rw [ih, user_turn_count_run_exchange]
      simp [List.length_cons]
      omega

theorem length_run_phase (qs : List String) :
    ∀ (api : List Message → ServiceResponse) (h : List Message),
      (run_phase api h qs).length = h.length + 2 * qs.length := by
  induction qs with
  | nil => intro api h; simp [run_phase]
  | cons q qs ih =>
      intro api h
      show (run_phase api (run_exchange api h q) qs).length = _
      rw [ih, length_run_exchange]
      simp [List.length_cons]
      omega

theorem run_exchange_extends (api : List Message → ServiceResponse)
    (h : List Message) (q : String) :
    ∃ t, run_exchange api h q = h ++ t :=
  ⟨[⟨"user", q⟩, ⟨"assistant", (call_deepseek_api (api (h ++ [⟨"user", q⟩]))).fst⟩],
    by simp [run_exchange]⟩

theorem run_phase_take_extends (api : List Message → ServiceResponse)
    (h : List Message) (qs : List String) (i : Nat) (hi : i < qs.length) :
    ∃ t, run_phase api h (qs.take (i + 1)) = run_phase api h (qs.take i) ++ t := by
  rw [List.take_succ, List.getElem?_eq_getElem hi]
  simp only [Option.toList]
  show ∃ t, List.foldl (run_exchange api) h (qs.take i ++ [qs[i]]) = _
  rw [List.foldl_append]
  simp only [List.foldl_cons, List.foldl_nil]
  exact run_exchange_extends api (run_phase api h (qs.take i)) qs[i]

theorem perm_insertDesc (x : String) (l : List String) :
    List.Perm (insertDesc x l) (x :: l) := by
  induction l with
  | nil => exact List.Perm.refl _
  | cons y ys ih =>
      by_cases hxy : x < y
      · simp only [insertDesc, if_pos hxy]
        exact List.Perm.trans (List.Perm.cons y ih) (List.Perm.swap x y ys)
      · simp only [insertDesc, if_neg hxy]
        exact List.Perm.refl _

theorem perm_sortDesc (l : List String) : List.Perm (sortDesc l) l := by
  induction l with
  | nil => exact List.Perm.refl _
  | cons x xs ih =>
      exact List.Perm.trans (perm_insertDesc x (sortDesc xs)) (List.Perm.cons x ih)

theorem pairwise_insertDesc (x : String) (l : List String)
    (h : List.Pairwise (fun a b => b ≤ a) l) :
    List.Pairwise (fun a b => b ≤ a) (insertDesc x l) := by
  induction l with
  | nil => simp [insertDesc]
  | cons y ys ih =>
      rw [List.pairwise_cons] at h
      obtain ⟨hy, hys⟩ := h
      by_cases hxy : x < y
      · simp only [insertDesc, if_pos hxy]
        rw [List.pairwise_cons]
        refine ⟨?_, ih hys⟩
        intro b hb
        rcases List.mem_cons.mp ((perm_insertDesc x ys).mem_iff.mp hb) with hb | hb
        · exact hb ▸ le_of_lt hxy
        · exact hy b hb
      · simp only [insertDesc, if_neg hxy]
        rw [List.pairwise_cons]
        refine ⟨?_, List.Pairwise.cons hy hys⟩
        intro b hb
        rcases List.mem_cons.mp hb with rfl | hb
        · exact not_lt.mp hxy
        · exact le_trans (hy b hb) (not_lt.mp hxy)

theorem pairwise_sortDesc (l : List String) :
    List.Pairwise (fun a b => b ≤ a) (sortDesc l) := by
  induction l with
  | nil => simp [sortDesc]
  | cons x xs ih => exact pairwise_insertDesc x (sortDesc xs) ih

theorem lex_append_left (p : List Char) {a b : List Char}
    (h : List.Lex (· < ·) a b) : List.Lex (· < ·) (p ++ a) (p ++ b) := by
  induction p with
  | nil => exact h
  | cons c cs ih => exact List.Lex.cons ih

theorem lex_append_of_length_eq {a b : List Char} (x y : List Char)
    (hlen : a.length = b.length) (h : List.Lex (· < ·) a b) :
    List.Lex (· < ·) (a ++ x) (b ++ y) := by
  induction h with
  | nil => simp at hlen
  | cons h ih =>
      simp only [List.length_cons, Nat.succ.injEq] at hlen
      exact List.Lex.cons (ih hlen)
  | rel h => exact List.Lex.rel h

theorem padChars_length (w n : Nat) : (padChars w n).length = w := by
  induction w generalizing n with
  | zero => rfl
  | succ w ih => simp [padChars, ih]

theorem digitChar_mono : ∀ d < 10, ∀ e < 10, d < e → Nat.digitChar d < Nat.digitChar e := by
  decide

theorem lex_padChars (w : Nat) :
    ∀ n m : Nat, n < 10 ^ w → m < 10 ^ w → n < m →
      List.Lex (· < ·) (padChars w n) (padChars w m) := by
  induction w with
  | zero =>
      intro n m hn hm hnm
      simp [Nat.pow_zero] at hn hm
      omega
  | succ w ih =>
      intro n m hn hm hnm
      have hpow : 0 < (10 : Nat) ^ w := pow_pos (by norm_num) w
      have hs : (10 : Nat) ^ (w + 1) = 10 ^ w * 10 := pow_succ 10 w
      have hdn : n / 10 ^ w < 10 := Nat.div_lt_of_lt_mul (by omega)
      have hdm : m / 10 ^ w < 10 := Nat.div_lt_of_lt_mul (by omega)
      have hq : n / 10 ^ w ≤ m / 10 ^ w := Nat.div_le_div_right (le_of_lt hnm)
      rcases lt_or_eq_of_le hq with hq | hq
      · exact List.Lex.rel (digitChar_mono _ hdn _ hdm hq)
      · have hmod : n % 10 ^ w < m % 10 ^ w := by
          have hn' := Nat.div_add_mod n (10 ^ w)
          have hm' := Nat.div_add_mod m (10 ^ w)
          rw [hq] at hn'
          omega
        have hrec : List.Lex (· < ·) (padChars w (n % 10 ^ w)) (padChars w (m % 10 ^ w)) :=
          ih _ _ (Nat.mod_lt _ hpow) (Nat.mod_lt _ hpow) hmod
        rw [padChars, padChars, hq]
        exact List.Lex.cons hrec

theorem default_context_filename_data (t : Timestamp) :
    (default_context_filename t).data =
      "context_".data ++ (padChars 4 t.year ++ (padChars 2 t.month ++ (padChars 2 t.day ++
        ("_".data ++ (padChars 2 t.hour ++ (padChars 2 t.minute ++
          (padChars 2 t.second ++ ".json".data))))))) := by
  simp [default_context_filename, Timestamp.strftime_compact, padStr, String.data_append,
    List.append_assoc]

theorem lex_pad4 {n m : Nat} (hn : n < 10000) (hm : m < 10000) (h : n < m) :
    List.Lex (· < ·) (padChars 4 n) (padChars 4 m) :=
  lex_padChars 4 n m (by norm_num; omega) (by norm_num; omega) h

theorem lex_pad2 {n m : Nat} (hn : n < 100) (hm : m < 100) (h : n < m) :
    List.Lex (· < ·) (padChars 2 n) (padChars 2 m) :=
  lex_padChars 2 n m (by norm_num; omega) (by norm_num; omega) h

theorem chron_filename_lt (t1 t2 : Timestamp) (w1 : t1.wf) (w2 : t2.wf)
    (h : t1.chronLt t2) :
    default_context_filename t1 < default_context_filename t2 := by
  rw [String.lt_iff_toList_lt]
  show List.Lex (· < ·) (default_context_filename t1).data (default_context_filename t2).data
  rw [default_context_filename_data, default_context_filename_data]
  obtain ⟨hy1, hmo1, hd1, hh1, hmi1, hs1⟩ := w1
  obtain ⟨hy2, hmo2, hd2, hh2, hmi2, hs2⟩ := w2
  apply lex_append_left
  rcases h with hy | ⟨hy, h⟩
  · exact lex_append_of_length_eq _ _ (by rw [padChars_length, padChars_length])
      (lex_pad4 hy1 hy2 hy)
  · rw [hy]
    apply lex_append_left
    rcases h with hmo | ⟨hmo, h⟩
    · exact lex_append_of_length_eq _ _ (by rw [padChars_length, padChars_length])
        (lex_pad2 hmo1 hmo2 hmo)
    · rw [hmo]
      apply lex_append_left
      rcases h with hd | ⟨hd, h⟩
      · exact lex_append_of_length_eq _ _ (by rw [padChars_length, padChars_length])
          (lex_pad2 hd1 hd2 hd)
      · rw [hd]
        apply lex_append_left
        apply lex_append_left
        rcases h with hh | ⟨hh, h⟩
        · exact lex_append_of_length_eq _ _ (by rw [padChars_length, padChars_length])
            (lex_pad2 hh1 hh2 hh)
        · rw [hh]
          apply lex_append_left
          rcases h with hmi | ⟨hmi, hsec⟩
          · exact lex_append_of_length_eq _ _ (by rw [padChars_length, padChars_length])
              (lex_pad2 hmi1 hmi2 hmi)
          · rw [hmi]
            apply lex_append_left
            exact lex_append_of_length_eq _ _ (by rw [padChars_length, padChars_length])
              (lex_pad2 hs1 hs2 hsec)

/-! ### Claims -/

/-- C2: on every state on which the compression step runs, the resulting
turn sequence contains exactly one turn, and that turn's role is
`"system"`. -/
theorem c2_post_compaction_invariant (api : List Message → ServiceResponse)
    (hist : List Message) :
    (compress_history api hist).length = 1 ∧
    (compress_history api hist).map Message.role = ["system"] :=
  ⟨rfl, rfl⟩

/-- C5: `call_deepseek_api` never raises — every failure (transport, auth,
malformed response) reaches the single `except` branch, which returns a
normal result whose text is the exception message prefixed with
`"Error: "` and whose usage counters are all zero. -/
theorem c5_api_error_result (e : String) :
    call_deepseek_api (.exn e) = ("Error: " ++ e, ⟨0, 0, 0⟩) ∧
    startsWithChars ("Error: ").data (call_deepseek_api (.exn e)).fst.data = true ∧
    (call_deepseek_api (.exn e)).snd = ⟨0, 0, 0⟩ := by
  refine ⟨rfl, ?_, rfl⟩
  show startsWithChars ("Error: ").data (("Error: " ++ e)).data = true
  rw [String.data_append]
  exact startsWithChars_append ("Error: ").data e.data

/-- C7: the token estimate is the total content length divided by 4
(truncating — `Nat` division), it is a non-negative integer, and appending a
turn never decreases it. -/
theorem c7_calculate_tokens_monotone (messages : List Message) (m : Message) :
    calculate_tokens messages = (messages.map (fun msg => msg.content.length)).sum / 4 ∧
    0 ≤ calculate_tokens messages ∧
    calculate_tokens messages ≤ calculate_tokens (messages ++ [m]) := by
  refine ⟨rfl, Nat.zero_le _, ?_⟩
  unfold calculate_tokens
  apply Nat.div_le_div_right
  simp

/-- C3: round-trip law — saving any conversation state and loading the
returned identifier yields exactly the serialized turn sequence that was
saved, which decodes back to the same role/content pairs in the same
order. -/
theorem c3_save_load_roundtrip (fs : MemoryDir) (now : Timestamp)
    (hist : List Message) (filename : Option String) :
    load_context_from_json (save_context_to_json fs now hist filename).fst
        (save_context_to_json fs now hist filename).snd
      = .ok (some (.arr (hist.map msgToJson)), []) ∧
    decodeTurns (.arr (hist.map msgToJson)) = some hist := by
  constructor
  · show load_context_from_json
      (dirWrite fs (filename.getD (default_context_filename now))
        (.valid (context_data_json now hist)))
      (filename.getD (default_context_filename now)) = _
    unfold load_context_from_json
    rw [dirLookup_dirWrite_self]
    rfl
  · show decodeTurnList (hist.map msgToJson) = some hist
    exact decodeTurnList_map hist

/-- C9: a record that exists and parses as a JSON object but has no
`conversation_history` field loads successfully as the empty turn sequence
(`dict.get` default), with no corruption diagnostic. -/
theorem c9_missing_history_field (fs : MemoryDir) (path : String)
    (fields : List (String × JsonVal))
    (h1 : dirLookup fs path = some (.valid (.obj fields)))
    (h2 : lookupField fields "conversation_history" = none) :
    load_context_from_json fs path = .ok (some (.arr []), []) ∧
    decodeTurns (.arr []) = some [] := by
  constructor
  · unfold load_context_from_json
    rw [h1]
    simp [h2]
  · rfl

/-- C9 witness: a concrete object record with only a `timestamp` field. -/
theorem c9_missing_history_field_witness :
    load_context_from_json [("a.json", .valid (.obj [("timestamp", .str "t")]))] "a.json"
      = .ok (some (.arr []), []) :=
  (c9_missing_history_field [("a.json", .valid (.obj [("timestamp", .str "t")]))]
    "a.json" [("timestamp", .str "t")] (by rfl) (by rfl)).1

/-- C10: every snapshot written by `save_context_to_json` stores a
`messages_count` field equal to the length of its stored
`conversation_history` array. -/
theorem c10_snapshot_count_invariant (fs : MemoryDir) (now : Timestamp)
    (hist : List Message) (filename : Option String) :
    dirLookup (save_context_to_json fs now hist filename).fst
        (save_context_to_json fs now hist filename).snd
      = some (.valid (context_data_json now hist)) ∧
    lookupField [("timestamp", .str now.isoformat),
        ("messages_count", .num hist.length),
        ("conversation_history", .arr (hist.map msgToJson))] "messages_count"
      = some (.num hist.length) ∧
    (hist.map msgToJson).length = hist.length := by
  refine ⟨?_, rfl, by simp⟩
  show dirLookup (dirWrite fs (filename.getD (default_context_filename now))
      (.valid (context_data_json now hist)))
      (filename.getD (default_context_filename now)) = _
  rw [dirLookup_dirWrite_self]

/-- C4 counterexample: the claim says the NotFound and Corrupt failure
kinds are distinguishable by the caller, but `load_context_from_json`
returns `None` in both cases — the value returned to the caller is
identical (`some none` = “returned normally, value `None`”); only the
printed diagnostics differ. -/
theorem c4_failures_counterexample :
    load_return_value (load_context_from_json [] "context_x.json") = some none ∧
    load_return_value
        (load_context_from_json [("context_x.json", .invalid)] "context_x.json")
      = some none ∧
    load_context_from_json [] "context_x.json"
      = .ok (none, ["❌ Файл context_x.json не найден"]) ∧
    load_context_from_json [("context_x.json", .invalid)] "context_x.json"
      = .ok (none, ["❌ Ошибка чтения JSON из файла context_x.json"]) :=
  ⟨rfl, rfl, rfl, rfl⟩

/-- C4 amended: `load_context_from_json` returns the stored
`conversation_history` when the record exists and parses as a JSON object;
when the identifier does not resolve it prints a not-found message and
returns `None`; when the record is not well-formed JSON it prints a
decode-error message and returns `None`.  The two failure kinds yield the
same return value and are distinguishable only through the printed
diagnostic, not by the caller of the function. -/
theorem c4_load_failures_amended (fs : MemoryDir) (path : String) :
    (dirLookup fs path = none →
      load_context_from_json fs path = .ok (none, ["❌ Файл " ++ path ++ " не найден"])) ∧
    (dirLookup fs path = some .invalid →
      load_context_from_json fs path
        = .ok (none, ["❌ Ошибка чтения JSON из файла " ++ path])) ∧
    (∀ fields, dirLookup fs path = some (.valid (.obj fields)) →
      load_context_from_json fs path
        = .ok (some ((lookupField fields "conversation_history").getD (.arr [])), [])) := by
  refine ⟨?_, ?_, ?_⟩
  · intro h
    unfold load_context_from_json
    rw [h]
  · intro h
    unfold load_context_from_json
    rw [h]
  · intro fields h
    unfold load_context_from_json
    rw [h]

/-- C4 witness: the amended theorem applied to three concrete stores, one
per branch. -/
theorem c4_load_failures_amended_witness :
    load_context_from_json [] "g.json" = .ok (none, ["❌ Файл g.json не найден"]) ∧
    load_context_from_json [("b.json", .invalid)] "b.json"
      = .ok (none, ["❌ Ошибка чтения JSON из файла b.json"]) ∧
    load_context_from_json
        [("c.json", .valid (.obj [("conversation_history", .arr [])]))] "c.json"
      = .ok (some (.arr []), []) :=
  ⟨(c4_load_failures_amended [] "g.json").1 rfl,
   (c4_load_failures_amended [("b.json", .invalid)] "b.json").2.1 rfl,
   (c4_load_failures_amended [("c.json", .valid (.obj [("conversation_history", .arr [])]))]
      "c.json").2.2 [("conversation_history", .arr [])] rfl⟩

/-- C1 counterexample: compression in `main` is positional, not
state-triggered.  Starting from a restored history that already contains
one `user` turn, the state the script compresses has 7 user turns — not a
positive multiple of 6 (`7 % 6 ≠ 0`) — yet the script still replaces the
13-message log with the single summary message, refuting “for every state
whose user-turn count is not a positive multiple of 6, no compaction occurs
and the turn log is unchanged”. -/
theorem c1_trigger_counterexample :
    user_turn_count (main_compaction_input (fun _ => .ok "ok" none) [⟨"user", "x"⟩]) = 7 ∧
    7 % 6 ≠ 0 ∧
    (main_compaction_input (fun _ => .ok "ok" none) [⟨"user", "x"⟩]).length = 13 ∧
    (compress_history (fun _ => .ok "ok" none)
        (main_compaction_input (fun _ => .ok "ok" none) [⟨"user", "x"⟩])).length = 1 ∧
    main_conversation (fun _ => .ok "ok" none) [⟨"user", "x"⟩]
      = run_phase (fun _ => .ok "ok" none)
          (compress_history (fun _ => .ok "ok" none)
            (main_compaction_input (fun _ => .ok "ok" none) [⟨"user", "x"⟩]))
          (test_questions.drop 6) :=
  ⟨rfl, by decide, rfl, rfl, rfl⟩

/-- C1 amended: compression is hard-wired to the single point of the script
after the sixth scripted exchange.  When the run starts from a history with
no `user` turns (a fresh start, or any snapshot the script itself saves —
those contain one `system` turn), the state at that point has user-turn
count exactly 6, a positive multiple of the threshold; before that point
the log only grows by appending (no compaction), the replacement resets the
user-turn count to 0, and the remaining exchanges are again append-only.
The “if and only if …for every state” law fails only for restored
histories whose own user-turn count is not a multiple of 6 (see the
counterexample). -/
theorem c1_trigger_amended (api : List Message → ServiceResponse)
    (loaded : List Message) (h0 : user_turn_count loaded = 0) :
    (∀ i, i ≤ 6 → user_turn_count (run_phase api loaded (test_questions.take i)) = i) ∧
    user_turn_count (main_compaction_input api loaded) = 6 ∧
    (∀ i, i < 6 → ∃ t, run_phase api loaded (test_questions.take (i + 1))
        = run_phase api loaded (test_questions.take i) ++ t) ∧
    user_turn_count (compress_history api (main_compaction_input api loaded)) = 0 ∧
    main_conversation api loaded
      = run_phase api (compress_history api (main_compaction_input api loaded))
          (test_questions.drop 6) := by
  have hcount : ∀ i, i ≤ 6 →
      user_turn_count (run_phase api loaded (test_questions.take i)) = i := by
    intro i hi
    have hlen : (test_questions.take i).length = i := by
      rw [List.length_take]
      have h8 : test_questions.length = 8 := rfl
      omega
    rw [user_turn_count_run_phase, h0, hlen]
    omega
  refine ⟨hcount, hcount 6 (by omega), ?_, rfl, rfl⟩
  intro i hi
  exact run_phase_take_extends api loaded test_questions i (by
    have h8 : test_questions.length = 8 := rfl
    omega)

/-- C1 witness: with a fresh (empty) start and an always-succeeding API
oracle, the compressed state has exactly 6 user turns and the replacement
resets the count to 0. -/
theorem c1_trigger_amended_witness :
    user_turn_count (main_compaction_input (fun _ => .ok "ok" none) []) = 6 ∧
    user_turn_count (compress_history (fun _ => .ok "ok" none)
      (main_compaction_input (fun _ => .ok "ok" none) [])) = 0 :=
  ⟨(c1_trigger_amended (fun _ => .ok "ok" none) [] rfl).2.1,
   (c1_trigger_amended (fun _ => .ok "ok" none) [] rfl).2.2.2.1⟩

/-- C6 counterexample: in the scripted 6-exchange scenario the state being
compressed has 12 messages (6 user + 6 assistant), and the replacement
system turn is the Russian template
`"Предыдущий контекст диалога (резюме 12 сообщений):\n<summary>"` — it
contains neither the substring `"6 messages"` nor the English template
`"Prior context"`; the embedded count is 12, the message count, not the
user-turn count 6. -/
theorem c6_template_counterexample :
    (main_compaction_input (fun _ => .ok "ok" none) []).length = 12 ∧
    user_turn_count (main_compaction_input (fun _ => .ok "ok" none) []) = 6 ∧
    (compress_history (fun _ => .ok "ok" none)
        (main_compaction_input (fun _ => .ok "ok" none) [])).map
      (fun m => str_contains_sub m.content "6 messages") = [false] ∧
    (compress_history (fun _ => .ok "ok" none)
        (main_compaction_input (fun _ => .ok "ok" none) [])).map
      (fun m => str_contains_sub m.content "Prior context") = [false] ∧
    (compress_history (fun _ => .ok "ok" none)
        (main_compaction_input (fun _ => .ok "ok" none) [])).map
      (fun m => str_contains_sub m.content "12 сообщений") = [true] :=
  ⟨rfl, rfl, rfl, rfl, rfl⟩

/-- C6 amended: when compression runs on the state reached from an empty
history by the six scripted exchanges, the replacement turn's content
embeds the original message count N = 12 (the 6 user turns plus their 6
assistant replies) and the summary text, in the Russian source form
`"Предыдущий контекст диалога (резюме 12 сообщений):\n<summary>"`. -/
theorem c6_compaction_message_amended (api : List Message → ServiceResponse) :
    (main_compaction_input api []).length = 12 ∧
    compress_history api (main_compaction_input api []) =
      [⟨"system", "Предыдущий контекст диалога (резюме 12 сообщений):\n"
          ++ create_conversation_summary api (main_compaction_input api [])⟩] := by
  have hlen : (main_compaction_input api []).length = 12 := by
    show (run_phase api [] (test_questions.take 6)).length = 12
    rw [length_run_phase]
    rfl
  refine ⟨hlen, ?_⟩
  show [(⟨"system", "Предыдущий контекст диалога (резюме "
      ++ toString (main_compaction_input api []).length ++ " сообщений):\n"
      ++ create_conversation_summary api (main_compaction_input api [])⟩ : Message)] = _
  rw [hlen]
  rfl

/-- C8: `list_saved_contexts` enumerates exactly the `.json` records of the
storage directory, in descending lexicographic order of name; every record
the system itself writes carries the default `.json` timestamp name and so
is enumerated; and the timestamp naming is order-preserving, so descending
lexicographic order coincides with most-recent-first order. -/
theorem c8_list_saved_contexts_order (fs : MemoryDir) :
    List.Perm (list_saved_contexts fs)
      ((fs.map Prod.fst).filter (fun f => str_endswith f ".json")) ∧
    List.Pairwise (fun a b : String => b ≤ a) (list_saved_contexts fs) ∧
    (∀ (now : Timestamp) (hist : List Message),
      (save_context_to_json fs now hist none).snd ∈
        list_saved_contexts (save_context_to_json fs now hist none).fst) ∧
    (∀ t1 t2 : Timestamp, t1.wf → t2.wf → t1.chronLt t2 →
      default_context_filename t1 < default_context_filename t2) := by
  refine ⟨perm_sortDesc _, pairwise_sortDesc _, ?_, chron_filename_lt⟩
  intro now hist
  have hels : str_endswith (default_context_filename now) ".json" = true := by
    show endsWithChars ("context_" ++ Timestamp.strftime_compact now ++ ".json").data
      (".json").data = true
    rw [String.data_append]
    exact endsWithChars_append _ _
  have hmem : default_context_filename now ∈
      ((dirWrite fs (default_context_filename now)
        (.valid (context_data_json now hist))).map Prod.fst) := by
    simp [dirWrite]
  show default_context_filename now ∈ list_saved_contexts
    (dirWrite fs (default_context_filename now) (.valid (context_data_json now hist)))
  exact (perm_sortDesc _).mem_iff.mpr (List.mem_filter.mpr ⟨hmem, hels⟩)

/-- C8 witness: the ordering facts at a concrete store and a concrete pair
of chronologically ordered timestamps. -/
theorem c8_list_saved_contexts_order_witness :
    List.Pairwise (fun a b : String => b ≤ a)
      (list_saved_contexts [("a.json", .invalid)]) ∧
    default_context_filename ⟨2025, 10, 11, 12, 0, 59⟩
      < default_context_filename ⟨2025, 10, 12, 6, 25, 0⟩ :=
  ⟨(c8_list_saved_contexts_order [("a.json", .invalid)]).2.1,
   (c8_list_saved_contexts_order []).2.2.2 ⟨2025, 10, 11, 12, 0, 59⟩
     ⟨2025, 10, 12, 6, 25, 0⟩ (by decide) (by decide) (by decide)⟩
